import Mathlib

/-!
Shallow embedding of the self-hosted media system (youtube_manager.py and
web_interface.py): the short/regular classifier, the SQLite-backed catalog
operations, the playlist ingestion loop, and the byte-range streaming
endpoints, together with theorems settling the specification claims.
-/

namespace Media

/-! ### Python string primitives used by the source -/

/-- Python `needle in hay` on strings (substring containment). -/
def pyContains (hay needle : List Char) : Bool :=
  match hay with
  | [] => needle.isEmpty
  | _ :: rest => needle.isPrefixOf hay || pyContains rest needle

/-- Recursion core of `replaceAll`, structurally recursive on a fuel bound:
with non-empty `pat`, every step shortens the scanned list, so fuel equal
to the list length never runs out. -/
def replaceAllAux (pat rep : List Char) : Nat → List Char → List Char
  | _, [] => []
  | 0, s => s
  | fuel + 1, c :: rest =>
    if pat.isPrefixOf (c :: rest) then
      rep ++ replaceAllAux pat rep fuel ((c :: rest).drop pat.length)
    else
      c :: replaceAllAux pat rep fuel rest

/-- Python `s.replace(pat, rep)`: replace every non-overlapping occurrence of
`pat` in `s`, scanning left to right.  (The source only calls this with the
non-empty pattern `"bytes="`; an empty pattern is returned unchanged here.) -/
def replaceAll (s pat rep : List Char) : List Char :=
  match pat with
  | [] => s
  | _ :: _ => replaceAllAux pat rep s.length s

/-- Python `s.split(sep)` for a single-character separator: the list of
fields between separator occurrences (always non-empty). -/
def pySplit (sep : Char) : List Char → List (List Char)
  | [] => [[]]
  | c :: rest =>
    match pySplit sep rest with
    | [] => [[]]
    | f :: fs => if c = sep then [] :: f :: fs else (c :: f) :: fs

/-- Decimal digit test (`0x30 ≤ c ≤ 0x39`). -/
def isDigitByte (c : Char) : Bool := 48 ≤ c.toNat && c.toNat ≤ 57

/-- Python `int(s)` restricted to unsigned ASCII decimal strings: `some` of
the denoted number on a non-empty all-digit string, `none` otherwise.  This
model is one-sided: `pyInt cs = some n` implies `int()` returns `n`, but
`pyInt cs = none` does not imply `int()` raises — Python additionally
accepts a leading sign, surrounding whitespace, underscores between digits
and non-ASCII Unicode digits.  Theorems therefore use `pyInt` only where it
agrees with `int()`: positively (all-digit fields), or negatively on fields
containing an ASCII letter, which `int()` rejects in every case. -/
def pyInt (cs : List Char) : Option Nat :=
  if !cs.isEmpty && cs.all isDigitByte then
    some (cs.foldl (fun n c => n * 10 + (c.toNat - 48)) 0)
  else
    none

/-! ### The short/regular classifier (`is_youtube_short`) -/

/-- The fields of the extractor's metadata record read by the classifier.
`info.get('duration', 0)` / `width` / `height` default to `0` when absent
(and an absent-or-zero value is falsy in the source's boolean tests), so an
unknown value is modelled as `0`. -/
structure VideoInfo where
  duration : Nat
  width : Nat
  height : Nat
  web_page_url : String

/-- `YouTubeDownloadManager.is_youtube_short` (youtube_manager.py:95-110):
true when the URL read from the record contains `/shorts/`, or when the
duration is truthy (non-zero) and at most 60 and both dimensions are truthy
with height strictly greater than width. -/
def is_youtube_short (info : VideoInfo) : Bool :=
  let is_short_duration := decide (info.duration ≠ 0) && decide (info.duration ≤ 60)
  let is_vertical :=
    if decide (info.height ≠ 0) && decide (info.width ≠ 0) then
      decide (info.width < info.height)
    else false
  let is_short_url := pyContains info.web_page_url.data "/shorts/".data
  is_short_url || (is_short_duration && is_vertical)

/-! ### The catalog store (SQLite database model)

The `videos` table has `id INTEGER PRIMARY KEY AUTOINCREMENT` and
`video_id TEXT UNIQUE NOT NULL`; `tags` and `playlist_items` reference
`videos.id` with no cascading action; `playlists` has
`playlist_id TEXT UNIQUE` (youtube_manager.py:34-83). -/

/-- The thirteen non-key columns of a `videos` row, in the order bound by
`save_to_database`'s INSERT (youtube_manager.py:295-315). -/
structure VideoData where
  video_id : String
  title : String
  uploader : String
  upload_date : String
  duration : Nat
  description : String
  view_count : Nat
  is_short : Bool
  file_path : String
  thumbnail_path : String
  download_date : String
  original_url : String
  status : String
deriving DecidableEq, Repr

/-- A `videos` row: the autoincrement primary key plus the column values. -/
structure VideoRow where
  id : Nat
  fields : VideoData
deriving DecidableEq, Repr

/-- A `tags` row (its own autoincrement key is never read; omitted). -/
structure TagRow where
  video_id : Nat
  tag : String
deriving DecidableEq, Repr

/-- A `playlists` row. -/
structure PlaylistRow where
  id : Nat
  playlist_id : String
  name : String
  description : String
  created_date : String
deriving DecidableEq, Repr

/-- A `playlist_items` row. -/
structure PlaylistItemRow where
  playlist_id : Nat
  videos_id : Nat
  position : Nat
deriving DecidableEq, Repr

/-- The database state.  `videoSeq` / `playlistSeq` are the AUTOINCREMENT
sequence values of the two keyed tables: SQLite assigns `seq + 1` to a new
row and never reuses an id, so every live row id is at most the sequence
value. -/
structure DB where
  videos : List VideoRow
  tags : List TagRow
  playlists : List PlaylistRow
  playlistItems : List PlaylistItemRow
  videoSeq : Nat
  playlistSeq : Nat
deriving DecidableEq, Repr

def emptyDB : DB := ⟨[], [], [], [], 0, 0⟩

/-- `YouTubeDownloadManager.save_to_database` (youtube_manager.py:283-333):
`INSERT OR REPLACE INTO videos` deletes any row conflicting on the unique
`video_id` column and inserts a fresh row under a new autoincrement id
(`cursor.lastrowid`); then one `tags` row is inserted for `'YouTube'`
followed by each caller tag, all referencing the new id.  The
`playlist_name` parameter is accepted but unused by the source body.
Returns the updated state and `lastrowid`. -/
def save_to_database (db : DB) (video_data : VideoData) (tags : List String)
    (_playlist_name : Option String := none) : DB × Nat :=
  let newId := db.videoSeq + 1
  let kept := db.videos.filter (fun r => r.fields.video_id ≠ video_data.video_id)
  let all_tags := "YouTube" :: tags
  ({ db with
      videos := kept ++ [⟨newId, video_data⟩]
      tags := db.tags ++ all_tags.map (fun t => ⟨newId, t⟩)
      videoSeq := newId },
   newId)

/-- Result dict of `download_video`: the `'status'` key is `'success'` with
the catalog row id (`'db_id'`), or `'error'` with a message. -/
inductive DlResult where
  | success (video_id : String) (title : String) (db_id : Nat)
  | error (message : String)
deriving DecidableEq, Repr

def DlResult.isSuccess : DlResult → Bool
  | .success _ _ _ => true
  | .error _ => false

/-- `db_id` of a success result (`0` is never consulted on the error arm). -/
def DlResult.dbId : DlResult → Nat
  | .success _ _ i => i
  | .error _ => 0

/-- `YouTubeDownloadManager.download_video` (youtube_manager.py:112-219),
with the two `yt_dlp` calls (metadata extraction and retrieval) modelled by
the oracle `fetch`: on failure the exception message becomes an error dict
and the catalog is untouched; on success the source assembles `video_data`
with `status = 'completed'` from the extracted record and the downloaded
file path — modelled as the `VideoData` the oracle yields — saves it with
the caller tags, and returns a success dict carrying the new row id.
(Directory creation and the filename template are filesystem concerns with
no effect on the catalog.) -/
def download_video (fetch : String → Except String VideoData) (db : DB)
    (url : String) (custom_tags : List String) : DB × DlResult :=
  match fetch url with
  | .error msg => (db, .error msg)
  | .ok vd =>
    let saved := save_to_database db { vd with status := "completed" } custom_tags
    (saved.1, .success vd.video_id vd.title saved.2)

/-- A flattened playlist entry (`extract_flat`): the fields read by the
loop of `download_playlist`. -/
structure PlaylistEntry where
  url : Option String
  id : String
  title : String
deriving DecidableEq, Repr

/-- The playlist-level metadata record returned by extraction. -/
structure PlaylistInfo where
  id : String
  title : String
  description : String
  entries : List PlaylistEntry
deriving DecidableEq, Repr

/-- The URL handed to `download_video` for an entry:
`entry.get('url') or f"https://www.youtube.com/watch?v={entry.get('id')}"`. -/
def entryUrl (e : PlaylistEntry) : String :=
  e.url.getD ("https://www.youtube.com/watch?v=" ++ e.id)

/-- Top-level result of `download_playlist`. -/
structure PlaylistResult where
  status : String
  playlist_name : String
  total_videos : Nat
  results : List DlResult
deriving DecidableEq, Repr

/-- `INSERT OR IGNORE INTO playlists` keyed by the unique `playlist_id`
column followed by `SELECT id ... WHERE playlist_id = ?`
(youtube_manager.py:240-251): insert only when no row with that external id
exists, then read back the row id. -/
def upsertPlaylist (db : DB) (pid name description created : String) : DB × Nat :=
  match db.playlists.find? (fun p => p.playlist_id = pid) with
  | some row => (db, row.id)
  | none =>
    let newId := db.playlistSeq + 1
    ({ db with
        playlists := db.playlists ++ [⟨newId, pid, name, description, created⟩]
        playlistSeq := newId },
     newId)

/-- The entry loop of `download_playlist` (youtube_manager.py:257-274):
for each entry, in listing order and carrying the 0-based index `idx`,
download it; on a success result insert a `playlist_items` row
`(db_playlist_id, db_id, idx)`; append the result either way and continue. -/
def playlistLoop (fetch : String → Except String VideoData)
    (custom_tags : List String) (dbPlaylistId : Nat) :
    DB → Nat → List PlaylistEntry → DB × List DlResult
  | db, _, [] => (db, [])
  | db, idx, entry :: rest =>
    let step := download_video fetch db (entryUrl entry) custom_tags
    let db2 :=
      if step.2.isSuccess then
        { step.1 with
            playlistItems := step.1.playlistItems ++ [⟨dbPlaylistId, step.2.dbId, idx⟩] }
      else step.1
    let tail := playlistLoop fetch custom_tags dbPlaylistId db2 (idx + 1) rest
    (tail.1, step.2 :: tail.2)

/-- `YouTubeDownloadManager.download_playlist` (youtube_manager.py:221-281)
after a successful flat extraction (a failed extraction returns an error
dict before touching the catalog): upsert the playlist row, fetch its row
id, run the entry loop over all entries, and return a `'success'` dict with
the playlist name, the entry count, and the itemized per-entry results.
`now` stands for `datetime.now().isoformat()`. -/
def download_playlist (fetch : String → Except String VideoData) (db : DB)
    (info : PlaylistInfo) (custom_tags : List String) (now : String) :
    DB × PlaylistResult :=
  let up := upsertPlaylist db info.id info.title info.description now
  let run := playlistLoop fetch custom_tags up.2 up.1 0 info.entries
  (run.1,
   { status := "success"
     playlist_name := info.title
     total_videos := info.entries.length
     results := run.2 })

/-! ### Catalog queries -/

/-- `YouTubeDownloadManager.get_all_videos` (youtube_manager.py:344-358):
all rows with `status = 'completed'`, additionally filtered on `is_short`
when the optional argument is given. -/
def get_all_videos (db : DB) (is_short : Option Bool) : List VideoRow :=
  match is_short with
  | none => db.videos.filter (fun r => r.fields.status = "completed")
  | some b =>
    db.videos.filter (fun r => r.fields.status = "completed" ∧ r.fields.is_short = b)

/-- The single-quote character, `'`. -/
def sq : Char := Char.ofNat 39

/-- The SQL text of `search_videos` exactly as written in the source
(youtube_manager.py:365-369).  The closing quote of the `completed` literal
is missing. -/
def searchSQL : String :=
  "\n            SELECT * FROM videos\n            WHERE (title LIKE ? OR uploader LIKE ?)\n            AND status = " ++ String.singleton sq ++ "completed\n        "

/-- SQLite tokenizer state after scanning `s`: `true` when the scan ends
inside an unterminated single-quoted string literal (a doubled quote inside
a literal closes and reopens, which this toggle scan treats identically);
such SQL fails to parse and `cursor.execute` raises `OperationalError`. -/
def insideLiteral (s : String) : Bool :=
  s.data.foldl (fun inLit c => if c = sq then !inLit else inLit) false

/-- `YouTubeDownloadManager.search_videos` (youtube_manager.py:360-375):
executes `searchSQL`.  When that SQL is well-formed the query's evident
intent is the rows whose title or uploader contains `query` with
`status = 'completed'`; when the SQL has an unterminated literal, execution
raises `sqlite3.OperationalError`, modelled as `.error`. -/
def search_videos (db : DB) (query : String) : Except String (List VideoRow) :=
  if insideLiteral searchSQL then
    .error "sqlite3.OperationalError: unrecognized token"
  else
    .ok (db.videos.filter (fun r =>
      (pyContains r.fields.title.data query.data
        || pyContains r.fields.uploader.data query.data)
      && r.fields.status = "completed"))

/-! ### The streaming endpoints (web_interface.py)

Both `stream_video` and `stream_by_id` wrap their whole body in
`try: ... except Exception as e: raise HTTPException(status_code=500, ...)`.
`fastapi.HTTPException` is an `Exception` subclass, so an `HTTPException`
raised inside the `try` body is itself caught and re-raised with status
500; FastAPI then renders the raised exception's status code.  The
exceptions that can arise in the body are modelled by `PyErr`. -/

/-- An exception escaping the `try` body of a handler. -/
inductive PyErr where
  | httpError (status : Nat) (detail : String)
  | valueError
  | indexError
deriving DecidableEq, Repr

/-- An HTTP response: status code, header dict (in insertion order), body
bytes. -/
structure StreamResponse where
  status : Nat
  headers : List (String × String)
  body : List Nat
deriving DecidableEq, Repr

/-- The `iterfile` generator of `stream_video` (web_interface.py:636-645):
seek to `pos` and, while `remaining > 0`, read at most
`min(8192, remaining)` bytes, stopping early at end of file; the modelled
value is the concatenation of all yielded chunks. -/
def readChunks (file : List Nat) (pos remaining : Nat) : List Nat :=
  if remaining = 0 then []
  else
    match (file.drop pos).take (min 8192 remaining) with
    | [] => []
    | c :: cs =>
      (c :: cs) ++ readChunks file (pos + (c :: cs).length) (remaining - (c :: cs).length)
termination_by remaining
decreasing_by simp only [List.length_cons]; omega

/-- The range-header parsing of `stream_video` (web_interface.py:629-631):
`range_header.replace("bytes=", "").split("-")`, then
`start = int(range_match[0])` and
`end = int(range_match[1]) if range_match[1] else file_size - 1`.
A missing second field raises `IndexError`; a field `int()` cannot parse
raises `ValueError`; an empty second field selects the default `end`. -/
def parseRange (hdr : String) (fileSize : Nat) : Except PyErr (Nat × Int) :=
  let range_match := pySplit (Char.ofNat 45) (replaceAll hdr.data "bytes=".data [])
  match range_match[0]? with
  | none => .error .indexError
  | some f0 =>
    match pyInt f0 with
    | none => .error .valueError
    | some start =>
      match range_match[1]? with
      | none => .error .indexError
      | some f1 =>
        if f1.isEmpty then
          .ok (start, (fileSize : Int) - 1)
        else
          match pyInt f1 with
          | none => .error .valueError
          | some e => .ok (start, (e : Int))

/-- The `try` body of `stream_video` (web_interface.py:612-661), with the
filesystem modelled as `fs : path ↦ optional byte contents`: 404 when the
path does not exist; with a range header, parse it, build the 206 response
whose body is `iterfile` with `chunk_size = end - start + 1`; with no range
header, serve the whole file (a 200 `FileResponse`) declaring range
support. -/
def streamVideoCore (fs : String → Option (List Nat)) (file_path : String)
    (rangeHeader : Option String) : Except PyErr StreamResponse :=
  match fs file_path with
  | none => .error (.httpError 404 "Video not found")
  | some file =>
    let file_size := file.length
    match rangeHeader with
    | some hdr =>
      match parseRange hdr file_size with
      | .error e => .error e
      | .ok (start, rangeEnd) =>
        let chunk_size : Int := rangeEnd - start + 1
        let body := if chunk_size ≤ 0 then [] else readChunks file start chunk_size.toNat
        .ok { status := 206
              headers :=
                [("Content-Range",
                  "bytes " ++ toString start ++ "-" ++ toString rangeEnd ++ "/"
                    ++ toString file_size),
                 ("Accept-Ranges", "bytes"),
                 ("Content-Length", toString chunk_size),
                 ("Content-Type", "video/mp4")]
              body := body }
    | none => .ok { status := 200, headers := [("Accept-Ranges", "bytes")], body := file }

/-- The response FastAPI renders for an exception escaping a handler whose
`except` clause re-raised it as `HTTPException(500, ...)`. -/
def err500 : StreamResponse := ⟨500, [], []⟩

/-- The `/api/stream/{file_path}` endpoint: the `try` body's response, with
every escaping exception — including the explicitly raised 404 — caught by
`except Exception` and surfaced as a 500 response. -/
def stream_video (fs : String → Option (List Nat)) (file_path : String)
    (rangeHeader : Option String) : StreamResponse :=
  match streamVideoCore fs file_path rangeHeader with
  | .ok r => r
  | .error _ => err500

/-- The `try` body of `stream_by_id` (web_interface.py:697-717): look up
`file_path` of the row with the given id (`fetchone` on
`SELECT file_path FROM videos WHERE id = ?`); 404 when there is no row or
the stored path is falsy (empty); 404 when the path does not exist on
disk; otherwise delegate to `stream_video`, whose own failures reach this
caller as a raised `HTTPException(500)`. -/
def streamByIdCore (db : DB) (fs : String → Option (List Nat)) (video_id : Nat)
    (rangeHeader : Option String) : Except PyErr StreamResponse :=
  match db.videos.find? (fun r => r.id = video_id) with
  | none => .error (.httpError 404 "Video not found")
  | some row =>
    if row.fields.file_path.isEmpty then .error (.httpError 404 "Video not found")
    else
      match fs row.fields.file_path with
      | none => .error (.httpError 404 "Video file not found")
      | some _ =>
        match streamVideoCore fs row.fields.file_path rangeHeader with
        | .error e => .error (.httpError 500 (toString (repr e)))
        | .ok r => .ok r

/-- The `/api/stream-by-id/{video_id}` endpoint: as with `stream_video`,
every exception escaping the `try` body is converted to a 500 response by
the blanket `except` clause. -/
def stream_by_id (db : DB) (fs : String → Option (List Nat)) (video_id : Nat)
    (rangeHeader : Option String) : StreamResponse :=
  match streamByIdCore db fs video_id rangeHeader with
  | .ok r => r
  | .error _ => err500

/-! ### Sample data for witnesses -/

/-- A completed catalog record used by concrete witnesses. -/
def sampleData : VideoData :=
  ⟨"abc123", "A Title", "An Uploader", "20240101", 300, "desc", 10, false,
    "media/videos/An Uploader/A Title.mp4", "thumb", "2024-01-02", "u", "completed"⟩

/-- A pending catalog record used by concrete witnesses. -/
def samplePending : VideoData :=
  { sampleData with video_id := "pend01", status := "pending", is_short := true }

/-- A completed short record used by concrete witnesses. -/
def sampleShort : VideoData :=
  { sampleData with video_id := "short1", is_short := true }

/-! ### Classifier claims -/

/-- C2: any metadata record whose source URL contains the `/shorts/` path
marker is classified as a short, whatever its duration, width and height. -/
theorem is_youtube_short_of_url_marker (info : VideoInfo)
    (h : pyContains info.web_page_url.data "/shorts/".data = true) :
    is_youtube_short info = true := by
  simp [is_youtube_short, h]

/-- Witness for C2: a 120-second landscape record with a `/shorts/` URL is
classified as a short. -/
theorem is_youtube_short_of_url_marker_witness :
    pyContains ("https://www.youtube.com/shorts/abc".data) "/shorts/".data = true ∧
    is_youtube_short ⟨120, 1280, 720, "https://www.youtube.com/shorts/abc"⟩ = true :=
  ⟨by decide,
   is_youtube_short_of_url_marker ⟨120, 1280, 720, "https://www.youtube.com/shorts/abc"⟩
     (by decide)⟩

/-- C3: without the URL marker, the classifier returns true exactly when
the duration is non-zero and at most 60 and both dimensions are non-zero
with height strictly greater than width. -/
theorem is_youtube_short_iff_of_no_marker (info : VideoInfo)
    (h : pyContains info.web_page_url.data "/shorts/".data = false) :
    is_youtube_short info = true ↔
      (info.duration ≠ 0 ∧ info.duration ≤ 60 ∧
        info.width ≠ 0 ∧ info.height ≠ 0 ∧ info.width < info.height) := by
  simp only [is_youtube_short, h, Bool.false_or]
  by_cases hw : info.width = 0
  · simp [hw]
  · by_cases hh : info.height = 0
    · simp [hh]
    · simp [hw, hh, Bool.and_eq_true, decide_eq_true_iff]
      tauto

/-- Witness for C3, covering the three cited inputs: 45s 720x1280 is a
short; 45s 1280x720 is not; 120s 720x1280 is not. -/
theorem is_youtube_short_iff_of_no_marker_witness :
    pyContains ("https://www.youtube.com/watch?v=x".data) "/shorts/".data = false ∧
    is_youtube_short ⟨45, 720, 1280, "https://www.youtube.com/watch?v=x"⟩ = true ∧
    is_youtube_short ⟨45, 1280, 720, "https://www.youtube.com/watch?v=x"⟩ ≠ true ∧
    is_youtube_short ⟨120, 720, 1280, "https://www.youtube.com/watch?v=x"⟩ ≠ true :=
  ⟨by decide,
   (is_youtube_short_iff_of_no_marker ⟨45, 720, 1280, "https://www.youtube.com/watch?v=x"⟩
      (by decide)).mpr (by decide),
   fun hs =>
     absurd ((is_youtube_short_iff_of_no_marker
       ⟨45, 1280, 720, "https://www.youtube.com/watch?v=x"⟩ (by decide)).mp hs)
       (by decide),
   fun hs =>
     absurd ((is_youtube_short_iff_of_no_marker
       ⟨120, 720, 1280, "https://www.youtube.com/watch?v=x"⟩ (by decide)).mp hs)
       (by decide)⟩

/-! ### Query claims -/

/-- C6 (code bug): the search SQL has an unterminated string literal
(`'completed` misses its closing quote), so `cursor.execute` raises
`sqlite3.OperationalError` on every call — `search_videos` never returns
rows for any catalog state and any query. -/
theorem search_videos_always_raises (db : DB) (q : String) :
    search_videos db q = .error "sqlite3.OperationalError: unrecognized token" := rfl

/-- C7: every row returned by `get_all_videos` — with or without the
`is_short` filter — has status `completed`, and under the filter its
`is_short` flag equals the requested value. -/
theorem get_all_videos_only_completed (db : DB) (b : Option Bool) (r : VideoRow)
    (hr : r ∈ get_all_videos db b) :
    r.fields.status = "completed" ∧ ∀ x, b = some x → r.fields.is_short = x := by
  cases b with
  | none =>
    rw [get_all_videos, List.mem_filter] at hr
    exact ⟨by simpa using hr.2, fun x hx => by cases hx⟩
  | some x =>
    rw [get_all_videos, List.mem_filter] at hr
    have h2 := hr.2
    simp only [decide_eq_true_iff] at h2
    exact ⟨h2.1, fun y hy => by cases hy; exact h2.2⟩

/-- Witness for C7: on a catalog holding a completed short and a pending
row, the completed short is returned by the short-filtered listing and
satisfies the invariant. -/
theorem get_all_videos_only_completed_witness :
    (⟨2, sampleShort⟩ : VideoRow) ∈
      get_all_videos
        { emptyDB with videos := [⟨1, samplePending⟩, ⟨2, sampleShort⟩], videoSeq := 2 }
        (some true) ∧
    sampleShort.status = "completed" ∧
    ∀ x, (some true : Option Bool) = some x → sampleShort.is_short = x :=
  ⟨by decide,
   get_all_videos_only_completed
     { emptyDB with videos := [⟨1, samplePending⟩, ⟨2, sampleShort⟩], videoSeq := 2 }
     (some true) ⟨2, sampleShort⟩ (by decide)⟩

/-! ### Stream-by-id error handling -/

/-- C8 (code bug): the `try` body of `stream_by_id` raises
`HTTPException(404)` for an unknown catalog id or a missing file, but the
blanket `except Exception` clause catches it and re-raises it with status
500, so the endpoint answers 500 — not the 404 the source itself intends —
both for an id absent from the catalog and for a row whose file is gone
from disk. -/
theorem stream_by_id_missing_gives_500 :
    (stream_by_id emptyDB (fun _ => none) 1 none).status = 500 ∧
    (stream_by_id { emptyDB with videos := [⟨1, sampleData⟩], videoSeq := 1 }
        (fun _ => none) 1 none).status = 500 := by
  constructor <;> rfl

/-! ### Upsert claims -/

/-- A re-download of the same external id with changed fields, used by
concrete witnesses. -/
def sampleData2 : VideoData :=
  { sampleData with title := "Second Title", file_path := "media/second.mp4" }

/-- C4: saving a record whose external `video_id` already has a catalog row
replaces it — after the second save exactly one `videos` row carries that
external id, and its column values are the second save's. -/
theorem save_replaces_same_external_id (db : DB) (vd1 vd2 : VideoData)
    (t1 t2 : List String) (hid : vd1.video_id = vd2.video_id) :
    (save_to_database (save_to_database db vd1 t1).1 vd2 t2).1.videos.filter
        (fun r => r.fields.video_id = vd2.video_id)
      = [⟨db.videoSeq + 2, vd2⟩] := by
  simp only [save_to_database, List.filter_append, List.filter_filter]
  simp [List.filter]
  exact fun a _ h1 h2 => absurd h1 h2

/-- Witness for C4: two saves of external id `abc123` into an empty catalog
leave one row for it, with the second record's values under row id 2. -/
theorem save_replaces_same_external_id_witness :
    sampleData.video_id = sampleData2.video_id ∧
    (save_to_database (save_to_database emptyDB sampleData []).1
        sampleData2 ["Tag"]).1.videos.filter
        (fun r => r.fields.video_id = sampleData2.video_id)
      = [⟨2, sampleData2⟩] :=
  ⟨rfl, save_replaces_same_external_id emptyDB sampleData sampleData2 [] ["Tag"] rfl⟩

/-- C10 (implicit): `INSERT OR REPLACE` under AUTOINCREMENT gives the
replacing row a fresh id different from the replaced one; the earlier
save's tag rows (including its default `YouTube` tag) survive, still
referencing the now-deleted old id; no surviving video row carries the old
id; the save path never touches `playlist_items`, so earlier playlist
memberships keep referencing the old id as well; and the second save adds
a fresh `YouTube` tag row for the new id. -/
theorem save_replace_orphans_old_references (db : DB) (vd1 vd2 : VideoData)
    (t1 t2 : List String) (s1 s2 : DB × Nat)
    (h1 : s1 = save_to_database db vd1 t1)
    (h2 : s2 = save_to_database s1.1 vd2 t2)
    (hid : vd1.video_id = vd2.video_id)
    (hwf : ∀ r ∈ db.videos, r.id ≤ db.videoSeq) :
    s2.2 ≠ s1.2 ∧
    (∀ r ∈ s2.1.videos, r.id ≠ s1.2) ∧
    (⟨s1.2, "YouTube"⟩ : TagRow) ∈ s2.1.tags ∧
    (∀ t ∈ s1.1.tags, t ∈ s2.1.tags) ∧
    (⟨s2.2, "YouTube"⟩ : TagRow) ∈ s2.1.tags ∧
    s2.1.playlistItems = db.playlistItems := by
  subst h1 h2
  refine ⟨by simp [save_to_database], ?_, ?_, ?_, ?_, rfl⟩
  · intro r hr
    simp only [save_to_database, List.mem_append, List.mem_filter,
      List.mem_singleton] at hr
    rcases hr with ⟨⟨hdb, _⟩ | rfl, hne⟩ | rfl
    · have := hwf r hdb
      simp only [save_to_database]
      omega
    · simp only [decide_eq_true_iff, hid] at hne
      simp at hne
    · simp [save_to_database]
  · simp [save_to_database, List.mem_append]
  · intro t ht
    simp only [save_to_database, List.mem_append] at ht ⊢
    tauto
  · simp [save_to_database, List.mem_append]

/-- Witness for C10: the two-save scenario on an empty catalog, with a
custom tag on the first save. -/
theorem save_replace_orphans_old_references_witness :
    (save_to_database (save_to_database emptyDB sampleData ["First"]).1
        sampleData2 []).2
      ≠ (save_to_database emptyDB sampleData ["First"]).2 ∧
    (∀ r ∈ (save_to_database (save_to_database emptyDB sampleData ["First"]).1
        sampleData2 []).1.videos,
      r.id ≠ (save_to_database emptyDB sampleData ["First"]).2) ∧
    (⟨(save_to_database emptyDB sampleData ["First"]).2, "YouTube"⟩ : TagRow)
      ∈ (save_to_database (save_to_database emptyDB sampleData ["First"]).1
          sampleData2 []).1.tags ∧
    (∀ t ∈ (save_to_database emptyDB sampleData ["First"]).1.tags,
      t ∈ (save_to_database (save_to_database emptyDB sampleData ["First"]).1
          sampleData2 []).1.tags) ∧
    (⟨(save_to_database (save_to_database emptyDB sampleData ["First"]).1
        sampleData2 []).2, "YouTube"⟩ : TagRow)
      ∈ (save_to_database (save_to_database emptyDB sampleData ["First"]).1
          sampleData2 []).1.tags ∧
    (save_to_database (save_to_database emptyDB sampleData ["First"]).1
        sampleData2 []).1.playlistItems = emptyDB.playlistItems :=
  save_replace_orphans_old_references emptyDB sampleData sampleData2 ["First"] []
    (save_to_database emptyDB sampleData ["First"])
    (save_to_database (save_to_database emptyDB sampleData ["First"]).1 sampleData2 [])
    rfl rfl rfl (by decide)

/-! ### Playlist ingestion claims -/

/-- The identifying projection of a `playlist_items` row: which playlist it
belongs to and at which position. -/
def itemKey (it : PlaylistItemRow) : Nat × Nat := (it.playlist_id, it.position)

lemma download_video_playlistItems (fetch : String → Except String VideoData)
    (db : DB) (url : String) (tags : List String) :
    (download_video fetch db url tags).1.playlistItems = db.playlistItems := by
  cases h : fetch url <;> simp [download_video, h, save_to_database]

lemma download_video_isSuccess (fetch : String → Except String VideoData)
    (db : DB) (url : String) (tags : List String) :
    (download_video fetch db url tags).2.isSuccess = (fetch url).isOk := by
  cases h : fetch url <;>
    simp [download_video, h, DlResult.isSuccess, Except.isOk, Except.toBool]

lemma upsertPlaylist_playlistItems (db : DB) (pid name d c : String) :
    (upsertPlaylist db pid name d c).1.playlistItems = db.playlistItems := by
  unfold upsertPlaylist
  cases db.playlists.find? (fun p => p.playlist_id = pid) <;> simp

lemma playlistLoop_results (fetch : String → Except String VideoData)
    (tags : List String) (pid : Nat) :
    ∀ (es : List PlaylistEntry) (db : DB) (idx : Nat),
      (playlistLoop fetch tags pid db idx es).2.map DlResult.isSuccess
        = es.map (fun e => (fetch (entryUrl e)).isOk) := by
  intro es
  induction es with
  | nil => intro db idx; rfl
  | cons e rest ih =>
    intro db idx
    rw [playlistLoop]
    simp only [List.map_cons, download_video_isSuccess]
    rw [ih]

lemma playlistLoop_length (fetch : String → Except String VideoData)
    (tags : List String) (pid : Nat) (es : List PlaylistEntry) (db : DB) (idx : Nat) :
    (playlistLoop fetch tags pid db idx es).2.length = es.length := by
  have h := congrArg List.length (playlistLoop_results fetch tags pid es db idx)
  simpa using h

lemma playlistLoop_items (fetch : String → Except String VideoData)
    (tags : List String) (pid : Nat) :
    ∀ (es : List PlaylistEntry) (db : DB) (idx : Nat),
      (playlistLoop fetch tags pid db idx es).1.playlistItems.map itemKey
        = db.playlistItems.map itemKey
          ++ ((List.enumFrom idx es).filter
                (fun p => (fetch (entryUrl p.2)).isOk)).map (fun p => (pid, p.1)) := by
  intro es
  induction es with
  | nil => intro db idx; simp [playlistLoop]
  | cons e rest ih =>
    intro db idx
    rw [playlistLoop]
    simp only []
    cases hf : fetch (entryUrl e) with
    | error msg =>
      have hs : (download_video fetch db (entryUrl e) tags).2.isSuccess = false := by
        rw [download_video_isSuccess, hf]; rfl
      simp only [hs, if_neg Bool.false_ne_true]
      rw [ih]
      rw [download_video_playlistItems]
      simp [List.enumFrom, List.filter_cons, hf, Except.isOk, Except.toBool]
    | ok vd =>
      have hs : (download_video fetch db (entryUrl e) tags).2.isSuccess = true := by
        rw [download_video_isSuccess, hf]; rfl
      simp only [hs, if_pos rfl]
      rw [ih]
      simp only [List.map_append, download_video_playlistItems]
      simp [List.enumFrom, List.filter_cons, hf, Except.isOk, Except.toBool, itemKey]

/-- The playlist listing used by the concrete part of the C5 theorem. -/
def exampleEntry (i : String) : PlaylistEntry :=
  ⟨some ("https://e/" ++ i), i, "title " ++ i⟩

/-- A three-entry playlist record. -/
def exampleInfo : PlaylistInfo :=
  ⟨"PL1", "My Playlist", "", [exampleEntry "a", exampleEntry "b", exampleEntry "c"]⟩

/-- An extraction oracle that fails exactly on the second entry. -/
def exampleFetch : String → Except String VideoData := fun u =>
  if u = "https://e/b" then .error "HTTP Error 404: Not Found"
  else .ok { sampleData with video_id := u }

/-- C5: playlist ingestion never short-circuits: for every playlist of `n`
entries the top-level result is a success carrying `n` itemized per-entry
results whose success marks mirror the per-entry outcomes, and the new
`playlist_items` rows are exactly those of the successful entries, each at
its original 0-based listing index.  In particular, on a 3-entry playlist
whose second entry fails, there are 3 itemized results, 2 successes, and
exactly 2 rows with positions 0 and 2. -/
theorem download_playlist_processes_all_entries
    (fetch : String → Except String VideoData) (db : DB) (info : PlaylistInfo)
    (tags : List String) (now : String) :
    (download_playlist fetch db info tags now).2.status = "success" ∧
    (download_playlist fetch db info tags now).2.results.length
      = info.entries.length ∧
    (download_playlist fetch db info tags now).2.results.map DlResult.isSuccess
      = info.entries.map (fun e => (fetch (entryUrl e)).isOk) ∧
    (download_playlist fetch db info tags now).1.playlistItems.map itemKey
      = db.playlistItems.map itemKey
        ++ ((info.entries.enum.filter
              (fun p => (fetch (entryUrl p.2)).isOk)).map
            (fun p => ((upsertPlaylist db info.id info.title info.description now).2,
                       p.1))) ∧
    (download_playlist exampleFetch emptyDB exampleInfo [] now).2.results.length = 3 ∧
    (download_playlist exampleFetch emptyDB exampleInfo [] now).2.results.countP
        DlResult.isSuccess = 2 ∧
    (download_playlist exampleFetch emptyDB exampleInfo [] now).1.playlistItems.map
        (fun it => it.position) = [0, 2] := by
  refine ⟨rfl, ?_, ?_, ?_, ?_, ?_, ?_⟩
  · exact playlistLoop_length fetch tags _ info.entries _ 0
  · exact playlistLoop_results fetch tags _ info.entries _ 0
  · rw [show (download_playlist fetch db info tags now).1
        = (playlistLoop fetch tags
            (upsertPlaylist db info.id info.title info.description now).2
            (upsertPlaylist db info.id info.title info.description now).1 0
            info.entries).1 from rfl]
    rw [playlistLoop_items, upsertPlaylist_playlistItems]
    rfl
  · rfl
  · rfl
  · rfl

/-! ### Range-header parsing lemmas -/

lemma pyInt_digits {cs : List Char} {n : Nat} (h : pyInt cs = some n) :
    cs ≠ [] ∧ ∀ c ∈ cs, isDigitByte c = true := by
  unfold pyInt at h
  split at h
  case isTrue hc =>
    rw [Bool.and_eq_true] at hc
    obtain ⟨h1, h2⟩ := hc
    refine ⟨?_, fun c hcmem => List.all_eq_true.mp h2 c hcmem⟩
    intro hnil
    rw [hnil] at h1
    simp at h1
  case isFalse => cases h

lemma digit_ne_b_dash {c : Char} (h : isDigitByte c = true) : c ≠ 'b' ∧ c ≠ '-' := by
  constructor <;> rintro rfl <;> exact absurd h (by decide)

lemma replaceAllAux_fuel (pat rep : List Char) (hp : pat ≠ []) :
    ∀ fuel s, s.length ≤ fuel →
      replaceAllAux pat rep fuel s = replaceAllAux pat rep s.length s := by
  intro fuel
  induction fuel using Nat.strong_induction_on with
  | _ fuel ih =>
    intro s hs
    cases s with
    | nil => cases fuel <;> rfl
    | cons c rest =>
      cases fuel with
      | zero => simp at hs
      | succ fuel' =>
        obtain ⟨p, ps, rfl⟩ : ∃ p ps, pat = p :: ps := by
          cases pat with
          | nil => exact absurd rfl hp
          | cons p ps => exact ⟨p, ps, rfl⟩
        have hdl : ((c :: rest).drop (p :: ps).length).length ≤ rest.length := by
          simp only [List.length_drop, List.length_cons]
          omega
        have hrest : rest.length ≤ fuel' := by
          simp only [List.length_cons] at hs
          omega
        simp only [List.length_cons]
        rw [show replaceAllAux (p :: ps) rep (fuel' + 1) (c :: rest)
            = if (p :: ps).isPrefixOf (c :: rest) then
                rep ++ replaceAllAux (p :: ps) rep fuel'
                  ((c :: rest).drop (p :: ps).length)
              else c :: replaceAllAux (p :: ps) rep fuel' rest from rfl]
        rw [show replaceAllAux (p :: ps) rep (rest.length + 1) (c :: rest)
            = if (p :: ps).isPrefixOf (c :: rest) then
                rep ++ replaceAllAux (p :: ps) rep rest.length
                  ((c :: rest).drop (p :: ps).length)
              else c :: replaceAllAux (p :: ps) rep rest.length rest from rfl]
        by_cases hpre : (p :: ps).isPrefixOf (c :: rest) = true
        · rw [if_pos hpre, if_pos hpre]
          rw [ih fuel' (by omega) _ (by omega)]
          rw [ih rest.length (by omega) _ hdl]
        · rw [if_neg hpre, if_neg hpre]
          rw [ih fuel' (by omega) rest hrest]

/-- The recurrence the source's scan satisfies, recovered from the
fuel-based implementation. -/
lemma replaceAll_cons (p : Char) (ps rep : List Char) (c : Char) (rest : List Char) :
    replaceAll (c :: rest) (p :: ps) rep =
      if (p :: ps).isPrefixOf (c :: rest) then
        rep ++ replaceAll ((c :: rest).drop (p :: ps).length) (p :: ps) rep
      else c :: replaceAll rest (p :: ps) rep := by
  show replaceAllAux (p :: ps) rep (rest.length + 1) (c :: rest) = _
  rw [show replaceAllAux (p :: ps) rep (rest.length + 1) (c :: rest)
      = if (p :: ps).isPrefixOf (c :: rest) then
          rep ++ replaceAllAux (p :: ps) rep rest.length
            ((c :: rest).drop (p :: ps).length)
        else c :: replaceAllAux (p :: ps) rep rest.length rest from rfl]
  have hdl : ((c :: rest).drop (p :: ps).length).length ≤ rest.length := by
    simp only [List.length_drop, List.length_cons]
    omega
  by_cases hpre : (p :: ps).isPrefixOf (c :: rest) = true
  · rw [if_pos hpre, if_pos hpre]
    rw [replaceAllAux_fuel (p :: ps) rep (by simp) rest.length _ hdl]
    rfl
  · rw [if_neg hpre, if_neg hpre]
    rfl

lemma replaceAll_eq_self {p : Char} (ps s rep : List Char)
    (h : ∀ c ∈ s, c ≠ p) : replaceAll s (p :: ps) rep = s := by
  induction s with
  | nil => rfl
  | cons c rest ih =>
    have hcp : c ≠ p := h c (by simp)
    have hpre : (p :: ps).isPrefixOf (c :: rest) = false := by
      simp only [List.isPrefixOf]
      rw [beq_eq_false_iff_ne.mpr (fun hh => hcp hh.symm)]
      rfl
    rw [replaceAll_cons, hpre]
    simp only [Bool.false_eq_true, if_false]
    rw [ih (fun x hx => h x (by simp [hx]))]

lemma replaceAll_strip (t rep : List Char) :
    replaceAll ("bytes=".data ++ t) "bytes=".data rep
      = rep ++ replaceAll t "bytes=".data rep := by
  have hd : "bytes=".data = 'b' :: 'y' :: 't' :: 'e' :: 's' :: '=' :: [] := rfl
  rw [hd]
  rw [show ('b' :: 'y' :: 't' :: 'e' :: 's' :: '=' :: []) ++ t
        = 'b' :: ('y' :: 't' :: 'e' :: 's' :: '=' :: t) from rfl]
  rw [replaceAll_cons]
  have hpre : ('b' :: 'y' :: 't' :: 'e' :: 's' :: '=' :: []).isPrefixOf
      ('b' :: 'y' :: 't' :: 'e' :: 's' :: '=' :: t) = true := by
    simp [List.isPrefixOf]
  rw [hpre]
  simp

lemma pySplit_ne_nil (sep : Char) (s : List Char) : pySplit sep s ≠ [] := by
  cases s with
  | nil => simp [pySplit]
  | cons c rest =>
    rw [pySplit]
    cases h : pySplit sep rest with
    | nil => simp
    | cons f fs => by_cases hc : c = sep <;> simp [hc]

lemma pySplit_no_sep {sep : Char} {s : List Char} (h : ∀ c ∈ s, c ≠ sep) :
    pySplit sep s = [s] := by
  induction s with
  | nil => rfl
  | cons c rest ih =>
    have hc : c ≠ sep := h c (by simp)
    have ih2 := ih (fun x hx => h x (by simp [hx]))
    simp [pySplit, ih2, hc]

lemma pySplit_append {sep : Char} {s : List Char} (t : List Char)
    (h : ∀ c ∈ s, c ≠ sep) :
    pySplit sep (s ++ sep :: t) = s :: pySplit sep t := by
  induction s with
  | nil =>
    simp only [List.nil_append]
    rw [pySplit]
    cases hp : pySplit sep t with
    | nil => exact absurd hp (pySplit_ne_nil sep t)
    | cons f fs => simp
  | cons c rest ih =>
    have hc : c ≠ sep := h c (by simp)
    have ih2 := ih (fun x hx => h x (by simp [hx]))
    simp only [List.cons_append]
    rw [pySplit, ih2]
    simp [hc]

lemma parseRange_explicit {s e : List Char} {start endv : Nat} (hdr : String)
    (fileSize : Nat) (hd : hdr.data = "bytes=".data ++ (s ++ '-' :: e))
    (hs : pyInt s = some start) (he : pyInt e = some endv) :
    parseRange hdr fileSize = .ok (start, (endv : Int)) := by
  obtain ⟨hsne, hsd⟩ := pyInt_digits hs
  obtain ⟨hene, hed⟩ := pyInt_digits he
  have hnb : ∀ c ∈ s ++ '-' :: e, c ≠ 'b' := by
    intro c hc
    rcases List.mem_append.mp hc with h1 | h2
    · exact (digit_ne_b_dash (hsd c h1)).1
    · rcases List.mem_cons.mp h2 with rfl | h3
      · decide
      · exact (digit_ne_b_dash (hed c h3)).1
  have hbd : "bytes=".data = 'b' :: "ytes=".data := rfl
  unfold parseRange
  rw [hd, replaceAll_strip, hbd, replaceAll_eq_self _ _ _ hnb, List.nil_append]
  rw [pySplit_append e (fun c hc => (digit_ne_b_dash (hsd c hc)).2),
    pySplit_no_sep (fun c hc => (digit_ne_b_dash (hed c hc)).2)]
  simp only [List.getElem?_cons_zero, List.getElem?_cons_succ, hs, he]
  have hee : e.isEmpty = false := by
    cases e with
    | nil => exact absurd rfl hene
    | cons a l => rfl
  rw [hee]
  simp [he]

lemma parseRange_omitted {s : List Char} {start : Nat} (hdr : String)
    (fileSize : Nat) (hd : hdr.data = "bytes=".data ++ (s ++ ['-']))
    (hs : pyInt s = some start) :
    parseRange hdr fileSize = .ok (start, (fileSize : Int) - 1) := by
  obtain ⟨hsne, hsd⟩ := pyInt_digits hs
  have hnb : ∀ c ∈ s ++ ['-'], c ≠ 'b' := by
    intro c hc
    rcases List.mem_append.mp hc with h1 | h2
    · exact (digit_ne_b_dash (hsd c h1)).1
    · rcases List.mem_singleton.mp h2 with rfl
      decide
  have hbd : "bytes=".data = 'b' :: "ytes=".data := rfl
  unfold parseRange
  rw [hd, replaceAll_strip, hbd, replaceAll_eq_self _ _ _ hnb, List.nil_append]
  rw [show (s ++ ['-'] : List Char) = s ++ '-' :: [] from rfl]
  rw [pySplit_append [] (fun c hc => (digit_ne_b_dash (hsd c hc)).2)]
  rw [show pySplit '-' [] = [[]] from rfl]
  simp only [List.getElem?_cons_zero, List.getElem?_cons_succ, hs]
  rfl

/-! ### `iterfile` reads exactly the requested slice -/

lemma readChunks_eq_take (file : List Nat) :
    ∀ (remaining pos : Nat),
      readChunks file pos remaining = (file.drop pos).take remaining := by
  intro remaining
  induction remaining using Nat.strong_induction_on with
  | _ remaining ih =>
    intro pos
    rw [readChunks]
    by_cases h0 : remaining = 0
    · simp [h0]
    · rw [if_neg h0]
      cases hc : (file.drop pos).take (min 8192 remaining) with
      | nil =>
        have hnil : file.drop pos = [] := by
          rcases List.take_eq_nil_iff.mp hc with hmin | hl
          · exact absurd hmin (by omega)
          · exact hl
        show ([] : List Nat) = List.take remaining (List.drop pos file)
        rw [hnil, List.take_nil]
      | cons c cs =>
        have hlen : (c :: cs).length
            = min (min 8192 remaining) (file.drop pos).length := by
          rw [← hc, List.length_take]
        have hle : (c :: cs).length ≤ remaining := by
          rw [hlen]
          omega
        have hpos : 0 < (c :: cs).length := by simp
        show (c :: cs) ++ readChunks file (pos + (c :: cs).length)
              (remaining - (c :: cs).length)
            = List.take remaining (List.drop pos file)
        rw [ih (remaining - (c :: cs).length) (by omega) (pos + (c :: cs).length)]
        have hdd : List.drop (pos + (c :: cs).length) file
            = List.drop ((c :: cs).length) (List.drop pos file) := by
          rw [List.drop_drop]
        have htake : List.take ((c :: cs).length) (List.drop pos file) = c :: cs := by
          rw [← hc]
          apply List.take_eq_take.mpr
          rw [List.length_take]
          omega
        have hsplit : List.take remaining (List.drop pos file)
            = List.take ((c :: cs).length) (List.drop pos file)
              ++ List.take (remaining - (c :: cs).length)
                  (List.drop ((c :: cs).length) (List.drop pos file)) := by
          rw [← List.take_add]
          congr 1
          omega
        rw [hdd, hsplit, htake]

lemma toString_int_ofNat (n : Nat) : toString ((n : Nat) : Int) = toString n := rfl

/-! ### Streaming claims -/

/-- C1: for a file of `N` bytes and a well-formed range header
`bytes=start-end` with `start ≤ end < N` (decimal digit fields), the stream
endpoint answers 206 with `Content-Range: bytes start-end/N`,
`Content-Length: end-start+1`, and exactly the bytes from offset `start`
through `end` inclusive; with the end bound omitted (`bytes=start-`) the
end defaults to `N-1` and the body is the whole tail from `start`. -/
theorem stream_video_range_request_correct :
    (∀ (fs : String → Option (List Nat)) (path : String) (file : List Nat)
        (s e : String) (start endv : Nat),
        fs path = some file →
        pyInt s.data = some start → pyInt e.data = some endv →
        start ≤ endv → endv < file.length →
        stream_video fs path (some ("bytes=" ++ s ++ "-" ++ e)) =
          { status := 206
            headers :=
              [("Content-Range",
                "bytes " ++ toString start ++ "-" ++ toString endv ++ "/"
                  ++ toString file.length),
               ("Accept-Ranges", "bytes"),
               ("Content-Length", toString (endv - start + 1)),
               ("Content-Type", "video/mp4")]
            body := (file.drop start).take (endv - start + 1) }) ∧
    (∀ (fs : String → Option (List Nat)) (path : String) (file : List Nat)
        (s : String) (start : Nat),
        fs path = some file → pyInt s.data = some start → start < file.length →
        stream_video fs path (some ("bytes=" ++ s ++ "-")) =
          { status := 206
            headers :=
              [("Content-Range",
                "bytes " ++ toString start ++ "-" ++ toString (file.length - 1)
                  ++ "/" ++ toString file.length),
               ("Accept-Ranges", "bytes"),
               ("Content-Length", toString (file.length - start)),
               ("Content-Type", "video/mp4")]
            body := file.drop start }) := by
  constructor
  · intro fs path file s e start endv hfs hs he hse hend
    have hd : ("bytes=" ++ s ++ "-" ++ e).data
        = "bytes=".data ++ (s.data ++ '-' :: e.data) := by
      simp [String.data_append]
    have hpr := parseRange_explicit ("bytes=" ++ s ++ "-" ++ e) file.length hd hs he
    simp only [stream_video, streamVideoCore, hfs, hpr]
    have hchunk : ((endv : Int)) - (start : Nat) + 1
        = ((endv - start + 1 : Nat) : Int) := by push_cast; omega
    rw [hchunk]
    rw [if_neg (show ¬(((endv - start + 1 : Nat) : Int) ≤ 0) by push_cast; omega)]
    simp only [Int.toNat_ofNat, toString_int_ofNat, readChunks_eq_take]
  · intro fs path file s start hfs hs hlt
    have hd : ("bytes=" ++ s ++ "-").data
        = "bytes=".data ++ (s.data ++ ['-']) := by
      simp [String.data_append]
    have hpr := parseRange_omitted ("bytes=" ++ s ++ "-") file.length hd hs
    simp only [stream_video, streamVideoCore, hfs, hpr]
    have hchunk : ((file.length : Int)) - 1 - (start : Nat) + 1
        = ((file.length - start : Nat) : Int) := by omega
    rw [hchunk]
    rw [if_neg (show ¬(((file.length - start : Nat) : Int) ≤ 0) by omega)]
    have hend1 : ((file.length : Int)) - 1 = ((file.length - 1 : Nat) : Int) := by
      omega
    rw [hend1]
    simp only [Int.toNat_ofNat, toString_int_ofNat, readChunks_eq_take]
    have hbody : (file.drop start).take (file.length - start) = file.drop start := by
      apply List.take_of_length_le
      simp
    rw [hbody]

/-- The 1000-byte file of the witness. -/
def witnessFile : List Nat := List.replicate 1000 7

/-- The witness filesystem: one file of 1000 bytes at `f.mp4`. -/
def witnessFS : String → Option (List Nat) :=
  fun p => if p = "f.mp4" then some witnessFile else none

/-- Witness for C1: the 1000-byte file with range `bytes=100-199` yields
206, `Content-Range: bytes 100-199/1000`, `Content-Length: 100`, and the
100-byte slice from offset 100. -/
theorem stream_video_range_request_correct_witness :
    witnessFS "f.mp4" = some witnessFile ∧
    pyInt ("100" : String).data = some 100 ∧
    pyInt ("199" : String).data = some 199 ∧
    100 ≤ 199 ∧ 199 < witnessFile.length ∧
    stream_video witnessFS "f.mp4" (some ("bytes=" ++ "100" ++ "-" ++ "199")) =
      { status := 206
        headers :=
          [("Content-Range",
            "bytes " ++ toString 100 ++ "-" ++ toString 199 ++ "/"
              ++ toString witnessFile.length),
           ("Accept-Ranges", "bytes"),
           ("Content-Length", toString (199 - 100 + 1)),
           ("Content-Type", "video/mp4")]
        body := (witnessFile.drop 100).take (199 - 100 + 1) } :=
  ⟨rfl, by decide, by decide, by decide,
   by simp only [witnessFile, List.length_replicate]; omega,
   stream_video_range_request_correct.1 witnessFS "f.mp4" witnessFile "100" "199"
     100 199 rfl (by decide) (by decide) (by decide)
     (by simp only [witnessFile, List.length_replicate]; omega)⟩

end Media
